import Mathlib

/-!
# Verification of the percolator-cli specification against its source

Shallow embedding of the parts of `percolator-cli` (TypeScript) that the
claims C1..C10 are about:

* the little-endian byte encoders of `src/unnamed/part_006` and
  `src/abi/encode.ts` / `src/abi/instructions.ts` (instruction ABI);
* the `InvariantChecker` checks of `tests/t9-determinism.ts`;
* the `checkConservation` helper of the happy-path script (part_007);
* the T1.3 margin assertions of `tests/t1-market-boot.ts`;
* `computePassiveQuote` of `src/commands/best-price.ts`;
* `buildAccountMetas` of `src/abi/accounts.ts` (shown in instructions.ts);
* a spec-modelled `parseHeader` (the file `src/solana/slab.ts` is not in
  the source tree, only its tests), and spec-modelled engine operations
  for the residual-preservation part of C5.

JavaScript `bigint` arithmetic is embedded as `Nat`/`Int`; `Buffer`s are
`List Nat` with every byte `< 256`.
-/

namespace Percolator

/-! ## Little-endian byte encoding primitives

Embeds the `Buffer.write*LE` calls used by `encU8 .. encI128LE` in
part_006 (identical local copies of `src/abi/encode.ts`, whose behaviour
is pinned by `test/abi.test.ts`). `toLEBytes w v` is the list of `w`
little-endian bytes of `v`; node validates that `v` fits, which the
claims' range hypotheses guarantee, so the `%`-reduction never differs
from the source on the claimed domain. -/

def toLEBytes : Nat → Nat → List Nat
  | 0, _ => []
  | w + 1, v => v % 256 :: toLEBytes w (v / 256)

/-- Read a list of bytes as a little-endian natural number. -/
def leNat : List Nat → Nat
  | [] => 0
  | b :: bs => b + 256 * leNat bs

theorem toLEBytes_length (w v : Nat) : (toLEBytes w v).length = w := by
  induction w generalizing v with
  | zero => rfl
  | succ w ih => simp [toLEBytes, ih]

theorem leNat_toLEBytes (w v : Nat) (h : v < 256 ^ w) :
    leNat (toLEBytes w v) = v := by
  induction w generalizing v with
  | zero =>
    simp [toLEBytes, leNat]
    omega
  | succ w ih =>
    have hlt : v / 256 < 256 ^ w := by
      rw [Nat.div_lt_iff_lt_mul (by norm_num)]
      calc v < 256 ^ (w + 1) := h
        _ = 256 ^ w * 256 := by ring
    simp [toLEBytes, leNat, ih _ hlt]
    omega

theorem toLEBytes_lt (w v : Nat) : ∀ b ∈ toLEBytes w v, b < 256 := by
  induction w generalizing v with
  | zero => simp [toLEBytes]
  | succ w ih =>
    intro b hb
    simp [toLEBytes] at hb
    rcases hb with h | h
    · omega
    · exact ih _ _ h

/-! Source encoders (part_006 lines 62-98; `encU16` etc. of
`src/abi/encode.ts` behave identically per `test/abi.test.ts`). -/

def encU8 (v : Nat) : List Nat := toLEBytes 1 v

def encU16LE (v : Nat) : List Nat := toLEBytes 2 v

def encU32LE (v : Nat) : List Nat := toLEBytes 4 v

def encU64LE (v : Nat) : List Nat := toLEBytes 8 v

/-- `encU128LE`: writes `v & 0xFFFFFFFFFFFFFFFF` at offset 0 and `v >> 64`
at offset 8, each as `writeBigUInt64LE`. -/
def encU128LE (v : Nat) : List Nat :=
  toLEBytes 8 (v % 2 ^ 64) ++ toLEBytes 8 (v / 2 ^ 64)

/-- `encI128LE` (part_006 lines 88-98): two's complement for negative
values, then the two 64-bit halves little-endian. -/
def encI128LE (v : Int) : List Nat :=
  let unsigned : Int := if v < 0 then 2 ^ 128 + v else v
  let u : Nat := unsigned.toNat
  toLEBytes 8 (u % 2 ^ 64) ++ toLEBytes 8 (u / 2 ^ 64 % 2 ^ 64)

/-- Decode 16 little-endian bytes as a signed (two's-complement) i128. -/
def decI128LE (bs : List Nat) : Int :=
  if leNat bs < 2 ^ 127 then (leNat bs : Int) else (leNat bs : Int) - 2 ^ 128

theorem leNat_append (xs ys : List Nat) :
    leNat (xs ++ ys) = leNat xs + 256 ^ xs.length * leNat ys := by
  induction xs with
  | nil => simp [leNat]
  | cons b bs ih =>
    simp [leNat, ih]
    ring

theorem encI128LE_length (v : Int) : (encI128LE v).length = 16 := by
  unfold encI128LE
  simp only [List.length_append, toLEBytes_length]

theorem leNat_encI128LE (v : Int) (h1 : -(2 ^ 127) ≤ v) (h2 : v < 2 ^ 127) :
    leNat (encI128LE v) = (if v < 0 then 2 ^ 128 + v else v).toNat := by
  unfold encI128LE
  set unsigned : Int := if v < 0 then 2 ^ 128 + v else v with hu
  have hbound : 0 ≤ unsigned ∧ unsigned < 2 ^ 128 := by
    rw [hu]; split <;> constructor <;> omega
  set u : Nat := unsigned.toNat with hun
  have hu128 : u < 2 ^ 128 := by
    have := hbound.2
    omega
  rw [leNat_append, toLEBytes_length,
      leNat_toLEBytes 8 (u % 2 ^ 64) (Nat.mod_lt _ (by norm_num)),
      leNat_toLEBytes 8 (u / 2 ^ 64 % 2 ^ 64) (Nat.mod_lt _ (by norm_num))]
  have hdiv : u / 2 ^ 64 < 2 ^ 64 := by
    rw [Nat.div_lt_iff_lt_mul (by norm_num)]
    calc u < 2 ^ 128 := hu128
      _ = 2 ^ 64 * 2 ^ 64 := by norm_num
  rw [Nat.mod_eq_of_lt hdiv]
  have : (256 : Nat) ^ 8 = 2 ^ 64 := by norm_num
  rw [this]
  omega

theorem decI128LE_encI128LE (v : Int) (h1 : -(2 ^ 127) ≤ v) (h2 : v < 2 ^ 127) :
    decI128LE (encI128LE v) = v := by
  unfold decI128LE
  rw [leNat_encI128LE v h1 h2]
  split_ifs <;> omega

/-! ## Instruction tags and builders

`IX_TAG` from `src/src/abi/instructions.ts` (lines 15-30). -/

structure IxTags where
  InitMarket : Nat
  InitUser : Nat
  InitLP : Nat
  DepositCollateral : Nat
  WithdrawCollateral : Nat
  KeeperCrank : Nat
  TradeNoCpi : Nat
  LiquidateAtOracle : Nat
  CloseAccount : Nat
  TopUpInsurance : Nat
  TradeCpi : Nat
  SetRiskThreshold : Nat
  UpdateAdmin : Nat
  CloseSlab : Nat

def IX_TAG : IxTags :=
  { InitMarket := 0
    InitUser := 1
    InitLP := 2
    DepositCollateral := 3
    WithdrawCollateral := 4
    KeeperCrank := 5
    TradeNoCpi := 6
    LiquidateAtOracle := 7
    CloseAccount := 8
    TopUpInsurance := 9
    TradeCpi := 10
    SetRiskThreshold := 11
    UpdateAdmin := 12
    CloseSlab := 13 }

/-- The code's tag table as an association list (operation name, tag),
in the declaration order of `IX_TAG`. -/
def ixTagTable : List (String × Nat) :=
  [ ("InitMarket", IX_TAG.InitMarket)
  , ("InitUser", IX_TAG.InitUser)
  , ("InitLP", IX_TAG.InitLP)
  , ("DepositCollateral", IX_TAG.DepositCollateral)
  , ("WithdrawCollateral", IX_TAG.WithdrawCollateral)
  , ("KeeperCrank", IX_TAG.KeeperCrank)
  , ("TradeNoCpi", IX_TAG.TradeNoCpi)
  , ("LiquidateAtOracle", IX_TAG.LiquidateAtOracle)
  , ("CloseAccount", IX_TAG.CloseAccount)
  , ("TopUpInsurance", IX_TAG.TopUpInsurance)
  , ("TradeCpi", IX_TAG.TradeCpi)
  , ("SetRiskThreshold", IX_TAG.SetRiskThreshold)
  , ("UpdateAdmin", IX_TAG.UpdateAdmin)
  , ("CloseSlab", IX_TAG.CloseSlab) ]

/-- The operation taxonomy table of spec.md §6, transcribed from the
spec's words (tag column and name column) for the refinement claim C2. -/
def specTaxonomyTable : List (String × Nat) :=
  [ ("InitMarket", 0)
  , ("InitUser", 1)
  , ("InitLP", 2)
  , ("DepositCollateral", 3)
  , ("WithdrawCollateral", 4)
  , ("KeeperCrank", 5)
  , ("TradeNoCpi", 6)
  , ("LiquidateAtOracle", 7)
  , ("CloseAccount", 8)
  , ("TopUpInsurance", 9)
  , ("TradeCpi", 10)
  , ("SetRiskThreshold", 11)
  , ("UpdateAdmin", 12)
  , ("CloseSlab", 13) ]

/-- `encodeKeeperCrank` (instructions.ts lines 175-181):
`tag(1) + callerIdx(2) + allowPanic(1)`. -/
def encodeKeeperCrank (callerIdx : Nat) (allowPanic : Bool) : List Nat :=
  encU8 IX_TAG.KeeperCrank ++ encU16LE callerIdx ++
    encU8 (if allowPanic then 1 else 0)

/-- `buildKeeperCrankData` (part_006 lines 159-166): hard-codes
`allowPanic = 0`. -/
def buildKeeperCrankData (callerIdx : Nat) : List Nat :=
  encU8 5 ++ encU16LE callerIdx ++ encU8 0

/-- `encodeTradeCpi` (instructions.ts lines 237-244):
`tag(1) + lpIdx(2) + userIdx(2) + size(16)`. -/
def encodeTradeCpi (lpIdx userIdx : Nat) (size : Int) : List Nat :=
  encU8 IX_TAG.TradeCpi ++ encU16LE lpIdx ++ encU16LE userIdx ++
    encI128LE size

/-- `buildTradeCpiData` (part_006 lines 172-181). -/
def buildTradeCpiData (lpIdx userIdx : Nat) (size : Int) : List Nat :=
  encU8 10 ++ encU16LE lpIdx ++ encU16LE userIdx ++ encI128LE size

theorem encU16LE_leNat (v : Nat) (h : v < 65536) :
    leNat (encU16LE v) = v :=
  leNat_toLEBytes 2 v (by norm_num; omega)

theorem toLEBytes_add (a b v : Nat) :
    toLEBytes (a + b) v = toLEBytes a v ++ toLEBytes b (v / 256 ^ a) := by
  induction a generalizing v with
  | zero => simp [toLEBytes]
  | succ a ih =>
    rw [Nat.succ_add]
    simp only [toLEBytes, ih, List.cons_append]
    rw [Nat.div_div_eq_div_mul, ← pow_succ']

theorem toLEBytes_mod (w v : Nat) :
    toLEBytes w (v % 256 ^ w) = toLEBytes w v := by
  induction w generalizing v with
  | zero => rfl
  | succ w ih =>
    simp only [toLEBytes]
    congr 1
    · exact Nat.mod_mod_of_dvd v (dvd_pow_self 256 (Nat.succ_ne_zero w))
    · rw [show (256 : Nat) ^ (w + 1) = 256 * 256 ^ w from by ring,
        Nat.mod_mul_right_div_self]
      exact ih (v / 256)

/-- The two-u64-halves encoding of a u128 equals the straight 16-byte
little-endian encoding. -/
theorem encU128LE_eq_toLEBytes (v : Nat) : encU128LE v = toLEBytes 16 v := by
  unfold encU128LE
  rw [show (2 : Nat) ^ 64 = 256 ^ 8 from by norm_num, toLEBytes_mod,
    show (16 : Nat) = 8 + 8 from rfl, toLEBytes_add]

/-- The spec's `i128` little-endian packing: 16 bytes of the
two's-complement image. -/
def i128Bytes (v : Int) : List Nat :=
  toLEBytes 16 (if v < 0 then 2 ^ 128 + v else v).toNat

/-- The source's two-u64-halves i128 encoding equals the spec's 16-byte
two's-complement packing. -/
theorem encI128LE_eq_i128Bytes (v : Int) : encI128LE v = i128Bytes v := by
  simp only [encI128LE, i128Bytes]
  rw [show (2 : Nat) ^ 64 = 256 ^ 8 from by norm_num, toLEBytes_mod,
    toLEBytes_mod, show (16 : Nat) = 8 + 8 from rfl, toLEBytes_add]

/-! ## The remaining instruction encoders (instructions.ts lines 75-271)

Pubkeys (`encPubkey(pk) = Buffer.from(pk.toBytes())`) are embedded as
their 32-byte lists. -/

def encPubkey (pk : List Nat) : List Nat := pk

/-- The byte pairing performed by `Buffer.from(hex, "hex")`: hex digits
are taken as their numeric values (0-15). -/
def hexPairs : List Nat → List Nat
  | d1 :: d2 :: rest => (16 * d1 + d2) :: hexPairs rest
  | _ => []

theorem hexPairs_length : ∀ l : List Nat, (hexPairs l).length = l.length / 2
  | [] => rfl
  | [_] => by simp [hexPairs]
  | _ :: _ :: rest => by
    simp only [hexPairs, List.length_cons, hexPairs_length rest]
    omega

/-- `encodeFeedId` (instructions.ts lines 66-73): requires exactly 64
hex digits, else throws. -/
def encodeFeedId (hexDigits : List Nat) : Except String (List Nat) :=
  if hexDigits.length ≠ 64 then .error "Invalid feed ID length"
  else .ok (hexPairs hexDigits)

/-- `InitMarketArgs` of instructions.ts, integer fields as `Nat`. -/
structure InitMarketArgs where
  admin : List Nat
  collateralMint : List Nat
  indexFeedId : List Nat
  maxStalenessSecs : Nat
  confFilterBps : Nat
  invert : Nat
  unitScale : Nat
  warmupPeriodSlots : Nat
  maintenanceMarginBps : Nat
  initialMarginBps : Nat
  tradingFeeBps : Nat
  maxAccounts : Nat
  newAccountFee : Nat
  riskReductionThreshold : Nat
  maintenanceFeePerSlot : Nat
  maxCrankStalenessSlots : Nat
  liquidationFeeBps : Nat
  liquidationFeeCap : Nat
  liquidationBufferBps : Nat
  minLiquidationAbs : Nat

/-- `encodeInitMarket` (instructions.ts lines 76-103): tag, admin,
mint, feed id, oracle bounds, then the RiskParams fields, concatenated
in source order. -/
def encodeInitMarket (a : InitMarketArgs) : Except String (List Nat) :=
  match encodeFeedId a.indexFeedId with
  | .error e => .error e
  | .ok feedBytes => .ok
      (encU8 IX_TAG.InitMarket ++ encPubkey a.admin ++
        encPubkey a.collateralMint ++ feedBytes ++
        encU64LE a.maxStalenessSecs ++ encU16LE a.confFilterBps ++
        encU8 a.invert ++ encU32LE a.unitScale ++
        encU64LE a.warmupPeriodSlots ++ encU64LE a.maintenanceMarginBps ++
        encU64LE a.initialMarginBps ++ encU64LE a.tradingFeeBps ++
        encU64LE a.maxAccounts ++ encU128LE a.newAccountFee ++
        encU128LE a.riskReductionThreshold ++
        encU128LE a.maintenanceFeePerSlot ++
        encU64LE a.maxCrankStalenessSlots ++ encU64LE a.liquidationFeeBps ++
        encU128LE a.liquidationFeeCap ++ encU64LE a.liquidationBufferBps ++
        encU128LE a.minLiquidationAbs)

def encodeInitUser (feePayment : Nat) : List Nat :=
  encU8 IX_TAG.InitUser ++ encU64LE feePayment

def encodeInitLP (matcherProgram matcherContext : List Nat)
    (feePayment : Nat) : List Nat :=
  encU8 IX_TAG.InitLP ++ encPubkey matcherProgram ++
    encPubkey matcherContext ++ encU64LE feePayment

def encodeDepositCollateral (userIdx amount : Nat) : List Nat :=
  encU8 IX_TAG.DepositCollateral ++ encU16LE userIdx ++ encU64LE amount

def encodeWithdrawCollateral (userIdx amount : Nat) : List Nat :=
  encU8 IX_TAG.WithdrawCollateral ++ encU16LE userIdx ++ encU64LE amount

def encodeTradeNoCpi (lpIdx userIdx : Nat) (size : Int) : List Nat :=
  encU8 IX_TAG.TradeNoCpi ++ encU16LE lpIdx ++ encU16LE userIdx ++
    encI128LE size

def encodeLiquidateAtOracle (targetIdx : Nat) : List Nat :=
  encU8 IX_TAG.LiquidateAtOracle ++ encU16LE targetIdx

def encodeCloseAccount (userIdx : Nat) : List Nat :=
  encU8 IX_TAG.CloseAccount ++ encU16LE userIdx

def encodeTopUpInsurance (amount : Nat) : List Nat :=
  encU8 IX_TAG.TopUpInsurance ++ encU64LE amount

def encodeSetRiskThreshold (newThreshold : Nat) : List Nat :=
  encU8 IX_TAG.SetRiskThreshold ++ encU128LE newThreshold

def encodeUpdateAdmin (newAdmin : List Nat) : List Nat :=
  encU8 IX_TAG.UpdateAdmin ++ encPubkey newAdmin

def encodeCloseSlab : List Nat :=
  encU8 IX_TAG.CloseSlab

/-! ## Spec-side payload layouts

Each definition below transcribes one row of the spec's §6 operation
taxonomy table: the listed tag as the first byte, then the listed
fields packed little-endian in the listed order (`toLEBytes w` is the
w-byte little-endian packing; pubkeys/feed ids are their 32 raw bytes;
`i128Bytes` is the 16-byte two's-complement packing). The RiskParams
144-byte block follows the field order of the spec's §3 Risk params
(funding config excluded, matching the 144-byte total). -/

/-- Spec row 0: `InitMarket | admin(32), mint(32), feed_id(32),
max_staleness_secs(u64), conf_filter_bps(u16), invert(u8),
unit_scale(u32), RiskParams(144B)`. -/
def specInitMarketBytes (a : InitMarketArgs) : List Nat :=
  0 :: (a.admin ++ a.collateralMint ++ hexPairs a.indexFeedId ++
    toLEBytes 8 a.maxStalenessSecs ++ toLEBytes 2 a.confFilterBps ++
    toLEBytes 1 a.invert ++ toLEBytes 4 a.unitScale ++
    toLEBytes 8 a.warmupPeriodSlots ++ toLEBytes 8 a.maintenanceMarginBps ++
    toLEBytes 8 a.initialMarginBps ++ toLEBytes 8 a.tradingFeeBps ++
    toLEBytes 8 a.maxAccounts ++ toLEBytes 16 a.newAccountFee ++
    toLEBytes 16 a.riskReductionThreshold ++
    toLEBytes 16 a.maintenanceFeePerSlot ++
    toLEBytes 8 a.maxCrankStalenessSlots ++ toLEBytes 8 a.liquidationFeeBps ++
    toLEBytes 16 a.liquidationFeeCap ++ toLEBytes 8 a.liquidationBufferBps ++
    toLEBytes 16 a.minLiquidationAbs)

/-- Spec row 1: `InitUser | fee_payment(u64)`. -/
def specInitUserBytes (feePayment : Nat) : List Nat :=
  1 :: toLEBytes 8 feePayment

/-- Spec row 2: `InitLP | matcher_program(32), matcher_context(32),
fee_payment(u64)`. -/
def specInitLPBytes (matcherProgram matcherContext : List Nat)
    (feePayment : Nat) : List Nat :=
  2 :: (matcherProgram ++ matcherContext ++ toLEBytes 8 feePayment)

/-- Spec row 3: `DepositCollateral | user_idx(u16), amount(u64)`. -/
def specDepositCollateralBytes (userIdx amount : Nat) : List Nat :=
  3 :: (toLEBytes 2 userIdx ++ toLEBytes 8 amount)

/-- Spec row 4: `WithdrawCollateral | user_idx(u16), amount(u64)`. -/
def specWithdrawCollateralBytes (userIdx amount : Nat) : List Nat :=
  4 :: (toLEBytes 2 userIdx ++ toLEBytes 8 amount)

/-- Spec row 5: `KeeperCrank | caller_idx(u16, 0xFFFF = permissionless),
allow_panic(u8)`. -/
def specKeeperCrankBytes (callerIdx : Nat) (allowPanic : Bool) : List Nat :=
  5 :: (toLEBytes 2 callerIdx ++ [if allowPanic then 1 else 0])

/-- Spec row 6: `TradeNoCpi | lp_idx(u16), user_idx(u16), size(i128)`. -/
def specTradeNoCpiBytes (lpIdx userIdx : Nat) (size : Int) : List Nat :=
  6 :: (toLEBytes 2 lpIdx ++ toLEBytes 2 userIdx ++ i128Bytes size)

/-- Spec row 7: `LiquidateAtOracle | target_idx(u16)`. -/
def specLiquidateAtOracleBytes (targetIdx : Nat) : List Nat :=
  7 :: toLEBytes 2 targetIdx

/-- Spec row 8: `CloseAccount | user_idx(u16)`. -/
def specCloseAccountBytes (userIdx : Nat) : List Nat :=
  8 :: toLEBytes 2 userIdx

/-- Spec row 9: `TopUpInsurance | amount(u64)`. -/
def specTopUpInsuranceBytes (amount : Nat) : List Nat :=
  9 :: toLEBytes 8 amount

/-- Spec row 10: `TradeCpi | lp_idx(u16), user_idx(u16), size(i128)`. -/
def specTradeCpiBytes (lpIdx userIdx : Nat) (size : Int) : List Nat :=
  10 :: (toLEBytes 2 lpIdx ++ toLEBytes 2 userIdx ++ i128Bytes size)

/-- Spec row 11: `SetRiskThreshold | new(u128)`. -/
def specSetRiskThresholdBytes (newThreshold : Nat) : List Nat :=
  11 :: toLEBytes 16 newThreshold

/-- Spec row 12: `UpdateAdmin | new_admin(32)`. -/
def specUpdateAdminBytes (newAdmin : List Nat) : List Nat :=
  12 :: newAdmin

/-- Spec row 13: `CloseSlab | (empty)`. -/
def specCloseSlabBytes : List Nat :=
  [13]

/-! ## Slab data model (parsed view)

Fields are restricted to the ones the embedded checks read; widths
follow the slab layout (u64/u128 as `Nat`, i128 as `Int`). -/

/-- Per-account record as parsed by `parseAccount`. -/
structure Account where
  accountId : Nat
  capital : Nat
  positionSize : Int
  deriving Repr, DecidableEq

/-- An entry of the `accounts` array of a snapshot: `{ idx, account }`. -/
structure IdxAccount where
  idx : Nat
  account : Account
  deriving Repr, DecidableEq

structure InsuranceFund where
  balance : Nat
  feeRevenue : Nat
  deriving Repr, DecidableEq

structure EngineState where
  numUsedAccounts : Nat
  nextAccountId : Nat
  insuranceFund : InsuranceFund
  vault : Nat
  deriving Repr, DecidableEq

structure RiskParams where
  maxAccounts : Nat
  initialMarginBps : Nat
  maintenanceMarginBps : Nat
  deriving Repr, DecidableEq

structure SlabHeader where
  magic : Nat
  version : Nat
  bump : Nat
  deriving Repr, DecidableEq

/-- Result of one invariant check (`InvariantResult`, message fields
dropped: only `name` and `passed` feed the verdict). -/
structure InvariantResult where
  name : String
  passed : Bool
  deriving Repr, DecidableEq

/-- `new Map(accounts.map(a => [a.idx, a.account])).get(i)`: a JS `Map`
built from pairs keeps the **last** binding of a duplicated key. -/
def accountMapGet (accounts : List IdxAccount) (i : Nat) : Option Account :=
  (accounts.reverse.find? (fun a => a.idx == i)).map (·.account)

/-- The used accounts in `usedIndices` order, resolved through the map
(indices missing from the accounts array are skipped, as every loop of
the checker does with `if (!acc) continue`). -/
def usedAccounts (accounts : List IdxAccount) (used : List Nat) : List Account :=
  used.filterMap (accountMapGet accounts)

/-! ## InvariantChecker (tests/t9-determinism.ts lines 300-535) -/

/-- I1 (lines 303-312): `header.magic === 0x504552434f4c4154n`. -/
def checkMagicNumber (header : SlabHeader) : InvariantResult :=
  { name := "I1: Magic number"
    passed := header.magic == 0x504552434f4c4154 }

/-- I2 (lines 318-353): every used index resolves in the accounts map,
and the bitmap popcount matches `engine.numUsedAccounts`. -/
def checkBitmapConsistency (engine : EngineState) (used : List Nat)
    (accounts : List IdxAccount) : InvariantResult :=
  if used.all (fun i => (accountMapGet accounts i).isSome) then
    if used.length == engine.numUsedAccounts then
      { name := "I2: Bitmap consistency", passed := true }
    else
      { name := "I2: Bitmap consistency", passed := false }
  else
    { name := "I2: Bitmap consistency", passed := false }

/-- The `seenIds` loop of I3: walk ids, fail on the first duplicate. -/
def noDupScan : List Nat → List Nat → Bool
  | [], _ => true
  | x :: xs, seen => if seen.contains x then false else noDupScan xs (x :: seen)

/-- I3 (lines 358-384): account ids are pairwise distinct across used
slots (ids are compared via `toString`, injective on `Nat`). -/
def checkAccountIdUniqueness (accounts : List IdxAccount)
    (used : List Nat) : InvariantResult :=
  { name := "I3: Account ID uniqueness"
    passed := noDupScan ((usedAccounts accounts used).map (·.accountId)) [] }

/-- The `totalUserCapital` loop of I4. -/
def totalUserCapital (accounts : List IdxAccount) (used : List Nat) : Nat :=
  used.foldl
    (fun s i =>
      match accountMapGet accounts i with
      | some acc => s + acc.capital
      | none => s) 0

/-- I4 (lines 386-444): `totalInSlab = Σ capital + insurance.balance`;
fails iff `|totalInSlab − vaultBalance| > 200_000` (0.2 USDC tolerance).
The `getAccount` fetch is modelled by passing the fetched
`vaultBalance`; the fetch-failure branch is out of scope of the claims.
`pnl_pos_tot` is **not** part of the sum. -/
def checkCollateralConservation (accounts : List IdxAccount)
    (used : List Nat) (engine : EngineState)
    (vaultBalance : Nat) : InvariantResult :=
  let totalInSlab := totalUserCapital accounts used + engine.insuranceFund.balance
  let diff := if totalInSlab > vaultBalance then totalInSlab - vaultBalance
              else vaultBalance - totalInSlab
  if diff > 200000 then
    { name := "I4: Collateral conservation", passed := false }
  else
    { name := "I4: Collateral conservation", passed := true }

/-- The long/short accumulation loop of I5. -/
def oiTotals (accounts : List IdxAccount) (used : List Nat) : Int × Int :=
  used.foldl
    (fun t i =>
      match accountMapGet accounts i with
      | none => t
      | some acc =>
          if acc.positionSize > 0 then (t.1 + acc.positionSize, t.2)
          else if acc.positionSize < 0 then (t.1, t.2 + -acc.positionSize)
          else t) (0, 0)

/-- I5 (lines 446-479): computes long/short totals but returns
`passed: true` unconditionally ("Info only for now"). -/
def checkOpenInterestBalance (accounts : List IdxAccount)
    (used : List Nat) : InvariantResult :=
  let _t := oiTotals accounts used
  { name := "I5: Open interest balance", passed := true }

/-- I6 (lines 484-511): fails iff some used account's `capital`
exceeds `2^100`. -/
def checkNoNegativeBalances (accounts : List IdxAccount)
    (used : List Nat) : InvariantResult :=
  if (usedAccounts accounts used).all (fun acc => acc.capital ≤ 2 ^ 100) then
    { name := "I6: No negative balances", passed := true }
  else
    { name := "I6: No negative balances", passed := false }

/-- I7 (lines 513-535): despite its doc comment
("numUsedAccounts <= maxAccounts, nextAccountId > all used IDs"),
the implementation only compares `numUsedAccounts` with `maxAccounts`. -/
def checkAccountCountConsistency (engine : EngineState)
    (params : RiskParams) (_used : List Nat) : InvariantResult :=
  if engine.numUsedAccounts > params.maxAccounts then
    { name := "I7: Account count consistency", passed := false }
  else
    { name := "I7: Account count consistency", passed := true }

/-- `checkAll` (lines 253-298) over an already-parsed snapshot: runs the
seven checks and conjoins their verdicts (`results.every(r => r.passed)`). -/
def checkAll (header : SlabHeader) (engine : EngineState)
    (params : RiskParams) (accounts : List IdxAccount)
    (used : List Nat) (vaultBalance : Nat) : Bool :=
  [ checkMagicNumber header
  , checkBitmapConsistency engine used accounts
  , checkAccountIdUniqueness accounts used
  , checkCollateralConservation accounts used engine vaultBalance
  , checkOpenInterestBalance accounts used
  , checkNoNegativeBalances accounts used
  , checkAccountCountConsistency engine params used
  ].all (·.passed)

/-! ## Happy-path conservation check (part_007 lines 84-93) -/

/-- `checkConservation`: `slack = vault − Σ capital − insurance.balance`
(bigint, may go negative, hence `Int`); returns `slack >= 0n`.
The `reduce` over `state.accounts` is embedded as a `foldl`. -/
def checkConservation (engine : EngineState) (accounts : List Account) : Bool :=
  let totalCap : Int := accounts.foldl (fun s a => s + (a.capital : Int)) 0
  let slack : Int := (engine.vault : Int) - totalCap - (engine.insuranceFund.balance : Int)
  decide (0 ≤ slack)

/-- The spec glossary's residual:
`vault − Σ capital − insurance.balance`. -/
def residual (engine : EngineState) (accounts : List Account) : Int :=
  (engine.vault : Int) - ((accounts.map (·.capital)).sum : Nat) -
    (engine.insuranceFund.balance : Int)

/-! ## T1.3 market-boot margin assertions (tests/t1-market-boot.ts
lines 96-117): `im > 0`, `mm > 0`, `im >= mm` (note: non-strict). -/

def t13MarginAssertions (params : RiskParams) : Bool :=
  decide (0 < params.initialMarginBps) &&
  decide (0 < params.maintenanceMarginBps) &&
  decide (params.maintenanceMarginBps ≤ params.initialMarginBps)

/-! ## computePassiveQuote (src/commands/best-price.ts lines 38-43)

The source computes in `bigint`; on the claim's domain (`p ≥ 0`,
`0 ≤ e ≤ 10000`) every intermediate value is non-negative and bigint
division is floor, so the `Nat` embedding coincides. -/

def BPS_DENOM : Nat := 10000

def computePassiveQuote (oraclePrice edgeBps : Nat) : Nat × Nat :=
  let bid := oraclePrice * (BPS_DENOM - edgeBps) / BPS_DENOM
  let askNumer := oraclePrice * (BPS_DENOM + edgeBps)
  let ask := (askNumer + BPS_DENOM - 1) / BPS_DENOM
  (bid, ask)

/-! ## buildAccountMetas (src/abi/accounts.ts, shown at instructions.ts
lines 474-488) -/

/-- `AccountSpec`: fixed account ordering entry. -/
structure AccountSpec where
  name : String
  signer : Bool
  writable : Bool
  deriving Repr, DecidableEq, Inhabited

/-- `AccountMeta` of web3.js; the pubkey is opaque, embedded as `Nat`. -/
structure AccountMeta where
  pubkey : Nat
  isSigner : Bool
  isWritable : Bool
  deriving Repr, DecidableEq, Inhabited

/-- Throws on length mismatch, else
`spec.map((s, i) => ({ pubkey: keys[i], isSigner: s.signer,
isWritable: s.writable }))`; with equal lengths the indexed map is the
zip of the two lists. -/
def buildAccountMetas (spec : List AccountSpec) (keys : List Nat) :
    Except String (List AccountMeta) :=
  if keys.length != spec.length then
    .error "Account count mismatch"
  else
    .ok (List.zipWith
      (fun s k => { pubkey := k, isSigner := s.signer, isWritable := s.writable })
      spec keys)

/-- `ACCOUNTS_KEEPER_CRANK` (accounts.ts): 4 accounts. -/
def ACCOUNTS_KEEPER_CRANK : List AccountSpec :=
  [ { name := "caller", signer := true, writable := false }
  , { name := "slab", signer := false, writable := true }
  , { name := "clock", signer := false, writable := false }
  , { name := "oracle", signer := false, writable := false } ]

/-! ## Slab header parser -/

/-- The slab magic `"PERCOLAT"`. -/
def SLAB_MAGIC : Nat := 0x504552434f4c4154

/-- Modelled from the spec: `parseHeader` lives in `src/solana/slab.ts`,
which is not in the source tree (only its tests `test/slab.test.ts` /
part_009 are). Per the spec ("Magic `\"PERCOLAT\"` at byte 0", header =
magic(8) + version(4) + bump(1) + padding(3) + admin(32) + reserved, 72
bytes) and the tests: the first 8 bytes are read little-endian and
compared against the magic, raising "Invalid slab magic" on mismatch;
a buffer too short to hold the header is also rejected. -/
def parseHeader (buf : List Nat) : Except String SlabHeader :=
  if buf.length < 8 then
    .error "Slab buffer too short"
  else if leNat (buf.take 8) != SLAB_MAGIC then
    .error "Invalid slab magic"
  else if buf.length < 72 then
    .error "Slab buffer too short"
  else
    .ok { magic := leNat (buf.take 8)
          version := leNat ((buf.drop 8).take 4)
          bump := buf.getD 12 0 }

/-! ## Spec-modelled engine operations (for the second half of C5)

Modelled from the spec: the operations that mutate the slab are on-chain
program code, not part of this repository's sources. The residual
`vault − Σ capital_i − insurance.balance` depends on the per-account
capitals only through their sum, so the model tracks the aggregates
`(vault, Σ capital, insurance.balance, pnl_pos_tot)` and each taxonomy
operation is decomposed into its elementary effects on them:

* InitUser/InitLP (§8 S2): `new_account_fee` enters the vault and is
  credited to insurance — `initAccount`;
* DepositCollateral: vault and the account's capital both grow —
  `deposit`;
* WithdrawCollateral (§4.6): requires `capital − amount ≥ 0`; vault and
  capital both shrink — `withdraw`;
* TopUpInsurance: vault and insurance both grow — `topUpInsurance`;
* CloseAccount: pays the account's remaining capital out of the vault —
  `closeAccount`;
* trading, liquidation and maintenance fees (§4.9 step 5, §4.10 step 3,
  §4.11 step 3): capital debited, insurance/fee_revenue credited —
  `chargeFee`;
* two-pass settlement pass A (§4.8): losses are charged against capital
  and then insurance — `settleLoss` (position/entry/funding updates and
  the funding legs are zero-sum across `pnl` fields and touch none of
  the four aggregates);
* two-pass settlement pass B (§4.8): converting `x` warmed PnL credits
  `floor(x · haircut)` with `haircut = min(residual, pnl_pos_tot) /
  pnl_pos_tot` — `convert`;
* auto-recovery (§4.11 step 8): the surplus `vault − Σ capital` moves
  into insurance and phantom positive PnL is zeroed — `recovery`.

TradeCpi/TradeNoCpi, LiquidateAtOracle and KeeperCrank are the
sequences `tradeSteps`, `liquidateSteps` and `crankSteps` of these
elementary effects; SetRiskThreshold, UpdateAdmin and the oracle ops
touch none of the four aggregates. A failed guard aborts with no state
change ("any error aborts the op with no slab mutation"). -/

structure SpecEngineState where
  vault : Nat
  sumCapital : Nat
  insurance : Nat
  pnlPosTot : Nat
  deriving Repr, DecidableEq

inductive SpecOp where
  | initAccount (fee : Nat)
  | deposit (amount : Nat)
  | withdraw (amount : Nat)
  | topUpInsurance (amount : Nat)
  | closeAccount (amount : Nat)
  | chargeFee (amount : Nat)
  | settleLoss (fromCapital fromInsurance : Nat)
  | convert (x : Nat)
  | recovery
  deriving Repr, DecidableEq

def specResidual (s : SpecEngineState) : Int :=
  (s.vault : Int) - (s.sumCapital : Int) - (s.insurance : Int)

/-- Modelled from the spec (§4.3, §4.6, §4.8-§4.11): apply one
elementary operation effect; a failed guard aborts with no state
change. -/
def applySpecOp (s : SpecEngineState) : SpecOp → SpecEngineState
  | .initAccount fee =>
      { s with vault := s.vault + fee, insurance := s.insurance + fee }
  | .deposit amount =>
      { s with vault := s.vault + amount, sumCapital := s.sumCapital + amount }
  | .withdraw amount =>
      if amount ≤ s.sumCapital then
        { s with vault := s.vault - amount, sumCapital := s.sumCapital - amount }
      else s
  | .topUpInsurance amount =>
      { s with vault := s.vault + amount, insurance := s.insurance + amount }
  | .closeAccount amount =>
      if amount ≤ s.sumCapital then
        { s with vault := s.vault - amount, sumCapital := s.sumCapital - amount }
      else s
  | .chargeFee amount =>
      if amount ≤ s.sumCapital then
        { s with sumCapital := s.sumCapital - amount,
                 insurance := s.insurance + amount }
      else s
  | .settleLoss fromCapital fromInsurance =>
      if fromCapital ≤ s.sumCapital ∧ fromInsurance ≤ s.insurance then
        { s with sumCapital := s.sumCapital - fromCapital,
                 insurance := s.insurance - fromInsurance }
      else s
  | .convert x =>
      if 0 < s.pnlPosTot ∧ x ≤ s.pnlPosTot then
        let credit := x * min (specResidual s).toNat s.pnlPosTot / s.pnlPosTot
        { s with sumCapital := s.sumCapital + credit, pnlPosTot := s.pnlPosTot - x }
      else s
  | .recovery =>
      if s.sumCapital ≤ s.vault then
        { s with insurance := s.vault - s.sumCapital, pnlPosTot := 0 }
      else s

/-- Modelled from the spec (§4.9): a trade charges the trading fee on
both sides, runs settlement pass A over `{user, lp}`, then pass B. -/
def tradeSteps (feeUser feeLp lossCapital lossInsurance converted : Nat) :
    List SpecOp :=
  [SpecOp.chargeFee feeUser, SpecOp.chargeFee feeLp,
   SpecOp.settleLoss lossCapital lossInsurance, SpecOp.convert converted]

/-- Modelled from the spec (§4.10): a liquidation charges the
liquidation fee, settles the realized loss, then runs pass B. -/
def liquidateSteps (liqFee lossCapital lossInsurance converted : Nat) :
    List SpecOp :=
  [SpecOp.chargeFee liqFee,
   SpecOp.settleLoss lossCapital lossInsurance, SpecOp.convert converted]

/-- Modelled from the spec (§4.11): a keeper crank charges maintenance
fees per account, settles losses, advances warmup conversions, and may
finish with the auto-recovery step. -/
def crankSteps (maintFees : List Nat) (lossCapital lossInsurance : Nat)
    (conversions : List Nat) (doRecovery : Bool) : List SpecOp :=
  maintFees.map SpecOp.chargeFee ++
    [SpecOp.settleLoss lossCapital lossInsurance] ++
    conversions.map SpecOp.convert ++
    (if doRecovery then [SpecOp.recovery] else [])

/-! ## Spec-side predicates (transcribed from the spec's words, for the
refinement comparisons and counterexamples) -/

/-- Spec P1: `vault == Σ capital_i + insurance.balance + pnl_pos_tot +
dust` with `|dust| ≤ 1 lamport · settlements_in_op`. -/
def specP1Conservation (vault sumCap ins pnlPos settlements : Nat) : Prop :=
  ((vault : Int) - ((sumCap : Int) + ins + pnlPos)).natAbs ≤ settlements

/-- Spec P3 (second half): `next_account_id > account_id(i)` for all
used `i`. -/
def specP3IdBound (engine : EngineState) (accounts : List IdxAccount)
    (used : List Nat) : Prop :=
  ∀ acc ∈ usedAccounts accounts used, acc.accountId < engine.nextAccountId

/-- Spec P4: `Σ max(p_i,0) == Σ max(−p_i,0)` over all used accounts. -/
def specP4OiBalance (accounts : List IdxAccount) (used : List Nat) : Prop :=
  ((usedAccounts accounts used).map (fun a => max a.positionSize 0)).sum =
    ((usedAccounts accounts used).map (fun a => max (-a.positionSize) 0)).sum

/-- Spec P6: `maintenance_margin_bps < initial_margin_bps` (strict). -/
def specP6MarginOrder (params : RiskParams) : Prop :=
  params.maintenanceMarginBps < params.initialMarginBps

/-! ## Helper lemmas: loops as sums -/

theorem usedAccounts_cons (accounts : List IdxAccount) (i : Nat) (rest : List Nat) :
    usedAccounts accounts (i :: rest) =
      match accountMapGet accounts i with
      | some acc => acc :: usedAccounts accounts rest
      | none => usedAccounts accounts rest := by
  simp only [usedAccounts, List.filterMap_cons]
  cases accountMapGet accounts i <;> rfl

theorem totalUserCapital_go (accounts : List IdxAccount) :
    ∀ (used : List Nat) (s : Nat),
      used.foldl
        (fun s i =>
          match accountMapGet accounts i with
          | some acc => s + acc.capital
          | none => s) s =
      s + ((usedAccounts accounts used).map (·.capital)).sum := by
  intro used
  induction used with
  | nil => intro s; simp [usedAccounts]
  | cons i rest ih =>
    intro s
    rw [List.foldl_cons, usedAccounts_cons]
    cases h : accountMapGet accounts i with
    | none => simp only [h]; rw [ih]
    | some acc =>
      simp only [h, List.map_cons, List.sum_cons]
      rw [ih]
      ring

theorem totalUserCapital_eq_sum (accounts : List IdxAccount) (used : List Nat) :
    totalUserCapital accounts used =
      ((usedAccounts accounts used).map (·.capital)).sum := by
  unfold totalUserCapital
  rw [totalUserCapital_go]
  exact Nat.zero_add _

theorem oiTotals_go (accounts : List IdxAccount) :
    ∀ (used : List Nat) (t : Int × Int),
      used.foldl
        (fun t i =>
          match accountMapGet accounts i with
          | none => t
          | some acc =>
              if acc.positionSize > 0 then (t.1 + acc.positionSize, t.2)
              else if acc.positionSize < 0 then (t.1, t.2 + -acc.positionSize)
              else t) t =
      (t.1 + ((usedAccounts accounts used).map (fun a => max a.positionSize 0)).sum,
       t.2 + ((usedAccounts accounts used).map (fun a => max (-a.positionSize) 0)).sum) := by
  intro used
  induction used with
  | nil => intro t; simp [usedAccounts]
  | cons i rest ih =>
    intro t
    rw [List.foldl_cons, usedAccounts_cons]
    cases h : accountMapGet accounts i with
    | none => simp only [h]; rw [ih]
    | some acc =>
      simp only [h, List.map_cons, List.sum_cons]
      by_cases hpos : acc.positionSize > 0
      · rw [if_pos hpos, ih]
        have h1 : max acc.positionSize 0 = acc.positionSize := by omega
        have h2 : max (-acc.positionSize) 0 = 0 := by omega
        rw [h1, h2]
        simp only [Prod.mk.injEq]
        constructor <;> dsimp only <;> ring
      · rw [if_neg hpos]
        by_cases hneg : acc.positionSize < 0
        · rw [if_pos hneg, ih]
          have h1 : max acc.positionSize 0 = 0 := by omega
          have h2 : max (-acc.positionSize) 0 = -acc.positionSize := by omega
          rw [h1, h2]
          simp only [Prod.mk.injEq]
          constructor <;> dsimp only <;> ring
        · rw [if_neg hneg, ih]
          have h1 : max acc.positionSize 0 = 0 := by omega
          have h2 : max (-acc.positionSize) 0 = 0 := by omega
          rw [h1, h2]
          simp only [Prod.mk.injEq]
          constructor <;> dsimp only <;> ring

theorem oiTotals_eq_sums (accounts : List IdxAccount) (used : List Nat) :
    oiTotals accounts used =
      (((usedAccounts accounts used).map (fun a => max a.positionSize 0)).sum,
       ((usedAccounts accounts used).map (fun a => max (-a.positionSize) 0)).sum) := by
  unfold oiTotals
  rw [oiTotals_go]
  simp

theorem capFoldl_go (accounts : List Account) :
    ∀ s : Int,
      accounts.foldl (fun s a => s + (a.capital : Int)) s =
      s + ((accounts.map (·.capital)).sum : Nat) := by
  induction accounts with
  | nil => intro s; simp
  | cons a rest ih =>
    intro s
    rw [List.foldl_cons, ih, List.map_cons, List.sum_cons]
    push_cast
    ring

theorem getD_zipWith (f : AccountSpec → Nat → AccountMeta) :
    ∀ (spec : List AccountSpec) (keys : List Nat) (i : Nat),
      i < spec.length → i < keys.length →
      (List.zipWith f spec keys).getD i default =
        f (spec.getD i default) (keys.getD i 0) := by
  intro spec
  induction spec with
  | nil => intro keys i h1 _; simp at h1
  | cons s rest ih =>
    intro keys i h1 h2
    cases keys with
    | nil => simp at h2
    | cons k krest =>
      cases i with
      | zero => simp [List.getD]
      | succ n =>
        simp only [List.zipWith_cons_cons, List.length_cons] at *
        simp only [List.getD_cons_succ]
        exact ih krest n (by omega) (by omega)

/-- Residual preservation for the spec-modelled operation effects:
account creation, deposit, withdraw, top-up, close and fee charges keep
the residual unchanged; loss settlement can only grow it; conversion
credits at most `min(residual, pnl_pos_tot)` because the haircut
numerator is clamped by the residual; recovery leaves it exactly 0. -/
theorem applySpecOp_residual_nonneg (s : SpecEngineState) (op : SpecOp)
    (h : 0 ≤ specResidual s) : 0 ≤ specResidual (applySpecOp s op) := by
  cases op with
  | initAccount fee =>
    simp only [applySpecOp, specResidual] at *
    push_cast
    omega
  | deposit amount =>
    simp only [applySpecOp, specResidual] at *
    push_cast
    omega
  | withdraw amount =>
    simp only [applySpecOp, specResidual] at *
    split
    · simp only
      omega
    · exact h
  | topUpInsurance amount =>
    simp only [applySpecOp, specResidual] at *
    push_cast
    omega
  | closeAccount amount =>
    simp only [applySpecOp, specResidual] at *
    split
    · simp only
      omega
    · exact h
  | chargeFee amount =>
    simp only [applySpecOp, specResidual] at *
    split
    · simp only
      omega
    · exact h
  | settleLoss fromCapital fromInsurance =>
    simp only [applySpecOp, specResidual] at *
    split
    · simp only
      omega
    · exact h
  | convert x =>
    simp only [applySpecOp, specResidual] at *
    split
    · rename_i hguard
      obtain ⟨hP, hx⟩ := hguard
      simp only
      have hcredit :
          x * min (specResidual s).toNat s.pnlPosTot / s.pnlPosTot ≤
            min (specResidual s).toNat s.pnlPosTot := by
        have h1 : x * min (specResidual s).toNat s.pnlPosTot ≤
            s.pnlPosTot * min (specResidual s).toNat s.pnlPosTot :=
          Nat.mul_le_mul_right _ hx
        have h2 := Nat.div_le_div_right (c := s.pnlPosTot) h1
        rwa [Nat.mul_div_cancel_left _ hP] at h2
      have hmin : min (specResidual s).toNat s.pnlPosTot ≤ (specResidual s).toNat :=
        Nat.min_le_left _ _
      simp only [specResidual] at *
      omega
    · exact h
  | recovery =>
    simp only [applySpecOp, specResidual] at *
    split
    · simp only
      omega
    · exact h

/-- Residual preservation extends to any sequence of spec-modelled
operation effects, hence to the composite trade, liquidation and crank
pipelines. -/
theorem applySpecOps_residual_nonneg (ops : List SpecOp) :
    ∀ s : SpecEngineState, 0 ≤ specResidual s →
      0 ≤ specResidual (ops.foldl applySpecOp s) := by
  induction ops with
  | nil => intro s h; exact h
  | cons op rest ih =>
    intro s h
    exact ih _ (applySpecOp_residual_nonneg s op h)

/-! ## Claim theorems -/

/-- C1 (counterexample): a state with an empty account set, zero
insurance, zero `pnl_pos_tot` and a vault balance of 200000 after one
settlement passes `checkCollateralConservation`, yet the claim's
conservation condition (`vault == Σ capital + insurance + pnl_pos_tot`
up to 1 lamport per settlement) is violated by 200000 lamports. -/
theorem c1_counterexample :
    (checkCollateralConservation [] [] ⟨0, 0, ⟨0, 0⟩, 0⟩ 200000).passed = true ∧
    ¬ specP1Conservation 200000 (totalUserCapital [] [])
        (EngineState.mk 0 0 ⟨0, 0⟩ 0).insuranceFund.balance 0 1 := by
  constructor
  · rfl
  · unfold specP1Conservation
    decide

/-- The verdict of I4 as a decidable comparison of the slab total with
the fetched vault balance. -/
theorem checkCollateralConservation_passed
    (accounts : List IdxAccount) (used : List Nat) (engine : EngineState)
    (vaultBalance : Nat) :
    (checkCollateralConservation accounts used engine vaultBalance).passed =
      decide ((if totalUserCapital accounts used + engine.insuranceFund.balance
                    > vaultBalance
                then totalUserCapital accounts used +
                  engine.insuranceFund.balance - vaultBalance
                else vaultBalance -
                  (totalUserCapital accounts used +
                    engine.insuranceFund.balance)) ≤ 200000) := by
  simp only [checkCollateralConservation]
  split_ifs with h1 h2 h3
  · exact (decide_eq_false (by omega)).symm
  · exact (decide_eq_true (by omega)).symm
  · exact (decide_eq_false (by omega)).symm
  · exact (decide_eq_true (by omega)).symm

/-- C1 (amended): `checkCollateralConservation` passes iff the absolute
difference between the vault token balance and
`Σ capital (used) + insurance.balance` is at most 200000 native units
(a fixed 0.2-USDC tolerance); `pnl_pos_tot` does not enter the sum and
the bound is not per-settlement. -/
theorem c1_collateral_conservation_amended :
    ∀ (accounts : List IdxAccount) (used : List Nat) (engine : EngineState)
      (vaultBalance : Nat),
      (checkCollateralConservation accounts used engine vaultBalance).passed = true ↔
        ((vaultBalance : Int) -
            (((((usedAccounts accounts used).map (·.capital)).sum : Nat) : Int) +
              (engine.insuranceFund.balance : Int)) ≤ 200000 ∧
          ((((((usedAccounts accounts used).map (·.capital)).sum : Nat)) : Int) +
              (engine.insuranceFund.balance : Int)) -
            (vaultBalance : Int) ≤ 200000) := by
  intro accounts used engine vaultBalance
  rw [checkCollateralConservation_passed, decide_eq_true_eq,
      totalUserCapital_eq_sum]
  split_ifs with h <;> omega

/-- C3 (counterexample): a state with a single used long position of
size 5 violates the OI-balance condition
(`Σ max(p,0) = 5 ≠ 0 = Σ max(−p,0)`), yet `checkOpenInterestBalance`
reports success. -/
theorem c3_counterexample :
    ¬ specP4OiBalance [⟨0, ⟨0, 0, 5⟩⟩] [0] ∧
    (checkOpenInterestBalance [⟨0, ⟨0, 0, 5⟩⟩] [0]).passed = true := by
  constructor
  · unfold specP4OiBalance
    decide
  · rfl

/-- C3 (amended): `checkOpenInterestBalance` computes `Σ max(p_i,0)`
and `Σ max(−p_i,0)` over the used accounts, but returns `passed: true`
unconditionally — it is informational only and never reports failure,
however unbalanced the books. -/
theorem c3_open_interest_amended :
    ∀ (accounts : List IdxAccount) (used : List Nat),
      (checkOpenInterestBalance accounts used).passed = true ∧
      oiTotals accounts used =
        (((usedAccounts accounts used).map (fun a => max a.positionSize 0)).sum,
         ((usedAccounts accounts used).map (fun a => max (-a.positionSize) 0)).sum) :=
  fun accounts used => ⟨rfl, oiTotals_eq_sums accounts used⟩

/-- C4 (code bug): a state whose single used account carries
`account_id = 5` while `next_account_id = 0` — violating P3's
`next_account_id > account_id(i)` — passes every check of `checkAll`:
`checkAccountCountConsistency` never compares `nextAccountId` with the
used ids, contradicting its own doc comment ("numUsedAccounts <=
maxAccounts, nextAccountId > all used IDs"). -/
theorem c4_checkAll_accepts_nonmonotonic_ids :
    checkAll ⟨0x504552434f4c4154, 1, 255⟩ ⟨1, 0, ⟨0, 0⟩, 0⟩ ⟨64, 1000, 500⟩
        [⟨0, ⟨5, 0, 0⟩⟩] [0] 0 = true ∧
    ¬ specP3IdBound ⟨1, 0, ⟨0, 0⟩, 0⟩ [⟨0, ⟨5, 0, 0⟩⟩] [0] := by
  constructor
  · decide
  · unfold specP3IdBound
    decide

/-- C6 (counterexample): a market with
`maintenance_margin_bps = initial_margin_bps = 500` passes the T1.3
margin assertions, though P6 requires the strict inequality. -/
theorem c6_counterexample :
    t13MarginAssertions ⟨64, 500, 500⟩ = true ∧
    ¬ specP6MarginOrder ⟨64, 500, 500⟩ := by
  constructor
  · decide
  · unfold specP6MarginOrder
    decide

/-- C6 (amended): the market-boot verification enforces only the
non-strict order — it accepts a state iff both margins are positive
and `maintenance_margin_bps ≤ initial_margin_bps`; equality is
accepted. -/
theorem c6_margin_assertions_amended :
    ∀ params : RiskParams,
      t13MarginAssertions params = true ↔
        (0 < params.initialMarginBps ∧ 0 < params.maintenanceMarginBps ∧
          params.maintenanceMarginBps ≤ params.initialMarginBps) := by
  intro params
  simp [t13MarginAssertions, and_assoc]

/-- C5: the happy-path conservation check returns true iff the residual
`vault − Σ capital − insurance.balance` is non-negative; and every
spec-modelled successful operation preserves non-negativity of the
residual — every elementary effect (account creation, deposit,
withdraw, insurance top-up, account close, fee charge, loss
settlement, warmed-PnL conversion with the §4.8 haircut, recovery),
every sequence of such effects, and in particular the composite trade
(§4.9), liquidation (§4.10) and keeper-crank (§4.11) pipelines. -/
theorem c5_conservation_residual :
    (∀ (engine : EngineState) (accounts : List Account),
        checkConservation engine accounts = true ↔ 0 ≤ residual engine accounts) ∧
    (∀ (s : SpecEngineState) (op : SpecOp),
        0 ≤ specResidual s → 0 ≤ specResidual (applySpecOp s op)) ∧
    (∀ (s : SpecEngineState) (ops : List SpecOp),
        0 ≤ specResidual s → 0 ≤ specResidual (ops.foldl applySpecOp s)) ∧
    (∀ (s : SpecEngineState) (feeUser feeLp lossCapital lossInsurance
          converted : Nat),
        0 ≤ specResidual s →
        0 ≤ specResidual
          ((tradeSteps feeUser feeLp lossCapital lossInsurance
              converted).foldl applySpecOp s)) ∧
    (∀ (s : SpecEngineState) (liqFee lossCapital lossInsurance
          converted : Nat),
        0 ≤ specResidual s →
        0 ≤ specResidual
          ((liquidateSteps liqFee lossCapital lossInsurance
              converted).foldl applySpecOp s)) ∧
    (∀ (s : SpecEngineState) (maintFees : List Nat)
          (lossCapital lossInsurance : Nat) (conversions : List Nat)
          (doRecovery : Bool),
        0 ≤ specResidual s →
        0 ≤ specResidual
          ((crankSteps maintFees lossCapital lossInsurance conversions
              doRecovery).foldl applySpecOp s)) := by
  refine ⟨?_, applySpecOp_residual_nonneg,
    fun s ops => applySpecOps_residual_nonneg ops s,
    fun s a b c d e => applySpecOps_residual_nonneg _ s,
    fun s a b c d => applySpecOps_residual_nonneg _ s,
    fun s a b c d e => applySpecOps_residual_nonneg _ s⟩
  intro engine accounts
  simp only [checkConservation, residual, capFoldl_go, decide_eq_true_eq]
  omega

/-- Witness for C5: a vault of 100 against capital 40 passes the check
and has residual 60; converting 5 units of warmed PnL, and a full trade
pipeline (two 1-unit fees, loss settlement 2 from capital and 1 from
insurance, conversion of 3), in the modelled state
`⟨vault 100, Σ capital 30, insurance 20, pnl_pos_tot 10⟩` keep the
residual non-negative. -/
theorem c5_conservation_residual_witness :
    (checkConservation ⟨0, 0, ⟨0, 0⟩, 100⟩ [⟨0, 40, 0⟩] = true ↔
      0 ≤ residual ⟨0, 0, ⟨0, 0⟩, 100⟩ [⟨0, 40, 0⟩]) ∧
    0 ≤ specResidual (applySpecOp ⟨100, 30, 20, 10⟩ (SpecOp.convert 5)) ∧
    0 ≤ specResidual
      ((tradeSteps 1 1 2 1 3).foldl applySpecOp ⟨100, 30, 20, 10⟩) :=
  ⟨c5_conservation_residual.1 ⟨0, 0, ⟨0, 0⟩, 100⟩ [⟨0, 40, 0⟩],
   c5_conservation_residual.2.1 ⟨100, 30, 20, 10⟩ (SpecOp.convert 5)
     (by unfold specResidual; decide),
   c5_conservation_residual.2.2.2.1 ⟨100, 30, 20, 10⟩ 1 1 2 1 3
     (by unfold specResidual; decide)⟩

/-- C7: the I1 integrity check passes iff `header.magic` equals
`0x504552434f4c4154` ("PERCOLAT"), and the (spec-modelled) header
parser rejects any buffer of at least 8 bytes whose first 8
little-endian bytes differ from that constant with the error
"Invalid slab magic". -/
theorem c7_magic_and_parse :
    (∀ header : SlabHeader,
        (checkMagicNumber header).passed = true ↔
          header.magic = 0x504552434f4c4154) ∧
    (∀ buf : List Nat, 8 ≤ buf.length → leNat (buf.take 8) ≠ SLAB_MAGIC →
        parseHeader buf = Except.error "Invalid slab magic") := by
  constructor
  · intro header
    simp [checkMagicNumber]
  · intro buf hlen hmagic
    have h8 : ¬ buf.length < 8 := by omega
    simp [parseHeader, h8, hmagic]

/-- Witness for C7: an 8-byte all-zero buffer has magic 0 and is
rejected with "Invalid slab magic". -/
theorem c7_magic_and_parse_witness :
    parseHeader [0, 0, 0, 0, 0, 0, 0, 0] = Except.error "Invalid slab magic" :=
  c7_magic_and_parse.2 [0, 0, 0, 0, 0, 0, 0, 0] (by decide)
    (by unfold SLAB_MAGIC; decide)

/-- C8: for oracle price `p ≥ 0` and edge `e ≤ 10000` bps,
`computePassiveQuote` returns the floor of `p·(10000−e)/10000` as bid
and the ceiling of `p·(10000+e)/10000` as ask (characterized by the
floor/ceiling inequalities), whence `bid ≤ p ≤ ask`. -/
theorem c8_passive_quote :
    ∀ p e : Nat, e ≤ 10000 →
      (computePassiveQuote p e).1 * 10000 ≤ p * (10000 - e) ∧
      p * (10000 - e) < ((computePassiveQuote p e).1 + 1) * 10000 ∧
      p * (10000 + e) ≤ (computePassiveQuote p e).2 * 10000 ∧
      (computePassiveQuote p e).2 * 10000 < p * (10000 + e) + 10000 ∧
      (computePassiveQuote p e).1 ≤ p ∧ p ≤ (computePassiveQuote p e).2 := by
  intro p e he
  have h1 : (computePassiveQuote p e).1 = p * (10000 - e) / 10000 := rfl
  have h2 : (computePassiveQuote p e).2 = (p * (10000 + e) + 10000 - 1) / 10000 := rfl
  rw [h1, h2]
  have hda := Nat.div_add_mod (p * (10000 - e)) 10000
  have hma : p * (10000 - e) % 10000 < 10000 := Nat.mod_lt _ (by norm_num)
  have hdb := Nat.div_add_mod (p * (10000 + e) + 10000 - 1) 10000
  have hmb : (p * (10000 + e) + 10000 - 1) % 10000 < 10000 :=
    Nat.mod_lt _ (by norm_num)
  have hap : p * (10000 - e) ≤ p * 10000 := Nat.mul_le_mul_left p (by omega)
  have hbp : p * 10000 ≤ p * (10000 + e) := Nat.mul_le_mul_left p (by omega)
  refine ⟨by omega, by omega, by omega, by omega, ?_, ?_⟩
  · exact Nat.le_of_mul_le_mul_right (by omega) (show 0 < 10000 by norm_num)
  · exact Nat.le_of_mul_le_mul_right (by omega) (show 0 < 10000 by norm_num)

/-- Witness for C8: at oracle price 1000000 and 50 bps edge the quote
brackets the price. -/
theorem c8_passive_quote_witness :
    (computePassiveQuote 1000000 50).1 ≤ 1000000 ∧
    1000000 ≤ (computePassiveQuote 1000000 50).2 :=
  ⟨(c8_passive_quote 1000000 50 (by decide)).2.2.2.2.1,
   (c8_passive_quote 1000000 50 (by decide)).2.2.2.2.2⟩

/-- C9: for every `v` in the signed 128-bit range, `encI128LE v` is a
16-byte buffer whose little-endian value is the two's-complement image
(`2^128 + v` for negative `v`, `v` otherwise) and which decodes back to
`v`. -/
theorem c9_encI128_roundtrip :
    ∀ v : Int, -(2 ^ 127) ≤ v → v < 2 ^ 127 →
      (encI128LE v).length = 16 ∧
      (∀ b ∈ encI128LE v, b < 256) ∧
      (leNat (encI128LE v) : Int) = (if v < 0 then 2 ^ 128 + v else v) ∧
      decI128LE (encI128LE v) = v := by
  intro v h1 h2
  refine ⟨encI128LE_length v, ?_, ?_, decI128LE_encI128LE v h1 h2⟩
  · intro b hb
    simp only [encI128LE, List.mem_append] at hb
    rcases hb with h | h
    · exact toLEBytes_lt _ _ _ h
    · exact toLEBytes_lt _ _ _ h
  · rw [leNat_encI128LE v h1 h2]
    split_ifs <;> omega

/-- Witness for C9: `-1000000` (a test vector of abi.test.ts)
round-trips through the encoder. -/
theorem c9_encI128_roundtrip_witness :
    (encI128LE (-1000000)).length = 16 ∧
    (∀ b ∈ encI128LE (-1000000), b < 256) ∧
    (leNat (encI128LE (-1000000)) : Int) =
      (if (-1000000 : Int) < 0 then 2 ^ 128 + -1000000 else -1000000) ∧
    decI128LE (encI128LE (-1000000)) = -1000000 :=
  c9_encI128_roundtrip (-1000000) (by norm_num) (by norm_num)

/-- C10: `buildAccountMetas` errs exactly when the key list's length
differs from the spec's, and otherwise returns the order-preserving
pointwise combination of keys with the spec's signer/writable flags. -/
theorem c10_buildAccountMetas_spec :
    ∀ (spec : List AccountSpec) (keys : List Nat),
      ((∃ msg, buildAccountMetas spec keys = Except.error msg) ↔
        keys.length ≠ spec.length) ∧
      (∀ metas, buildAccountMetas spec keys = Except.ok metas →
        metas.length = spec.length ∧
        ∀ i, i < metas.length →
          metas.getD i default =
            { pubkey := keys.getD i 0
              isSigner := (spec.getD i default).signer
              isWritable := (spec.getD i default).writable }) := by
  intro spec keys
  by_cases h : keys.length = spec.length
  · constructor
    · simp [buildAccountMetas, h]
    · intro metas hok
      simp only [buildAccountMetas, h, bne_self_eq_false, Bool.false_eq_true,
        if_false, Except.ok.injEq] at hok
      subst hok
      constructor
      · rw [List.length_zipWith]; omega
      · intro i hi
        rw [List.length_zipWith] at hi
        exact getD_zipWith _ spec keys i (by omega) (by omega)
  · constructor
    · simp [buildAccountMetas, h]
    · intro metas hok
      simp [buildAccountMetas, h] at hok

/-- Witness for C10: the KeeperCrank account ordering with four keys
yields the four expected metas. -/
theorem c10_buildAccountMetas_witness :
    ([⟨11, true, false⟩, ⟨22, false, true⟩, ⟨33, false, false⟩,
        ⟨44, false, false⟩] : List AccountMeta).length =
      ACCOUNTS_KEEPER_CRANK.length ∧
    ∀ i, i < ([⟨11, true, false⟩, ⟨22, false, true⟩, ⟨33, false, false⟩,
        ⟨44, false, false⟩] : List AccountMeta).length →
      ([⟨11, true, false⟩, ⟨22, false, true⟩, ⟨33, false, false⟩,
          ⟨44, false, false⟩] : List AccountMeta).getD i default =
        { pubkey := [11, 22, 33, 44].getD i 0
          isSigner := (ACCOUNTS_KEEPER_CRANK.getD i default).signer
          isWritable := (ACCOUNTS_KEEPER_CRANK.getD i default).writable } :=
  (c10_buildAccountMetas_spec ACCOUNTS_KEEPER_CRANK [11, 22, 33, 44]).2
    [⟨11, true, false⟩, ⟨22, false, true⟩, ⟨33, false, false⟩,
      ⟨44, false, false⟩] rfl

theorem toLEBytes_one (v : Nat) : toLEBytes 1 v = [v % 256] := rfl

theorem toLEBytes_two (v : Nat) : toLEBytes 2 v = [v % 256, v / 256 % 256] := rfl

/-- C2: the encoder tag table equals the spec's taxonomy table, and for
every operation of the taxonomy the corresponding encoder of
instructions.ts emits exactly the spec row's layout: the listed tag as
the first byte followed by the listed payload fields packed
little-endian in the listed order (`spec*Bytes` transcribe the rows).
In particular KeeperCrank is exactly 4 bytes
`[5, caller_idx lo, caller_idx hi, allow_panic]` (part_006's builder
fixes `allow_panic = 0`) and TradeCpi exactly 21 bytes
`[10] ++ lp_idx u16 LE ++ user_idx u16 LE ++ size i128 LE`, with the
u16 and i128 fields decoding back to the inputs. -/
theorem c2_instruction_encoding :
    ixTagTable = specTaxonomyTable ∧
    (∀ a : InitMarketArgs, a.admin.length = 32 →
      a.collateralMint.length = 32 → a.indexFeedId.length = 64 →
      encodeInitMarket a = Except.ok (specInitMarketBytes a) ∧
      (specInitMarketBytes a).length = 256) ∧
    (∀ feePayment : Nat,
      encodeInitUser feePayment = specInitUserBytes feePayment ∧
      (specInitUserBytes feePayment).length = 9) ∧
    (∀ (mp mc : List Nat) (feePayment : Nat), mp.length = 32 →
      mc.length = 32 →
      encodeInitLP mp mc feePayment = specInitLPBytes mp mc feePayment ∧
      (specInitLPBytes mp mc feePayment).length = 73) ∧
    (∀ userIdx amount : Nat,
      encodeDepositCollateral userIdx amount =
        specDepositCollateralBytes userIdx amount ∧
      (specDepositCollateralBytes userIdx amount).length = 11) ∧
    (∀ userIdx amount : Nat,
      encodeWithdrawCollateral userIdx amount =
        specWithdrawCollateralBytes userIdx amount ∧
      (specWithdrawCollateralBytes userIdx amount).length = 11) ∧
    (∀ callerIdx : Nat, callerIdx ≤ 65535 → ∀ allowPanic : Bool,
      encodeKeeperCrank callerIdx allowPanic =
        specKeeperCrankBytes callerIdx allowPanic ∧
      (encodeKeeperCrank callerIdx allowPanic).length = 4 ∧
      (encodeKeeperCrank callerIdx allowPanic).head? = some 5 ∧
      leNat (((encodeKeeperCrank callerIdx allowPanic).drop 1).take 2) =
        callerIdx ∧
      (encodeKeeperCrank callerIdx allowPanic).drop 3 =
        [if allowPanic then 1 else 0] ∧
      buildKeeperCrankData callerIdx = encodeKeeperCrank callerIdx false) ∧
    (∀ (lpIdx userIdx : Nat) (size : Int),
      encodeTradeNoCpi lpIdx userIdx size =
        specTradeNoCpiBytes lpIdx userIdx size ∧
      (specTradeNoCpiBytes lpIdx userIdx size).length = 21) ∧
    (∀ targetIdx : Nat,
      encodeLiquidateAtOracle targetIdx =
        specLiquidateAtOracleBytes targetIdx ∧
      (specLiquidateAtOracleBytes targetIdx).length = 3) ∧
    (∀ userIdx : Nat,
      encodeCloseAccount userIdx = specCloseAccountBytes userIdx ∧
      (specCloseAccountBytes userIdx).length = 3) ∧
    (∀ amount : Nat,
      encodeTopUpInsurance amount = specTopUpInsuranceBytes amount ∧
      (specTopUpInsuranceBytes amount).length = 9) ∧
    (∀ lpIdx userIdx : Nat, lpIdx ≤ 65535 → userIdx ≤ 65535 →
      ∀ size : Int, -(2 ^ 127) ≤ size → size < 2 ^ 127 →
      encodeTradeCpi lpIdx userIdx size =
        specTradeCpiBytes lpIdx userIdx size ∧
      (encodeTradeCpi lpIdx userIdx size).length = 21 ∧
      (encodeTradeCpi lpIdx userIdx size).head? = some 10 ∧
      leNat (((encodeTradeCpi lpIdx userIdx size).drop 1).take 2) = lpIdx ∧
      leNat (((encodeTradeCpi lpIdx userIdx size).drop 3).take 2) = userIdx ∧
      (encodeTradeCpi lpIdx userIdx size).drop 5 = encI128LE size ∧
      decI128LE ((encodeTradeCpi lpIdx userIdx size).drop 5) = size ∧
      buildTradeCpiData lpIdx userIdx size =
        encodeTradeCpi lpIdx userIdx size) ∧
    (∀ newThreshold : Nat,
      encodeSetRiskThreshold newThreshold =
        specSetRiskThresholdBytes newThreshold ∧
      (specSetRiskThresholdBytes newThreshold).length = 17) ∧
    (∀ newAdmin : List Nat, newAdmin.length = 32 →
      encodeUpdateAdmin newAdmin = specUpdateAdminBytes newAdmin ∧
      (specUpdateAdminBytes newAdmin).length = 33) ∧
    (encodeCloseSlab = specCloseSlabBytes ∧ specCloseSlabBytes.length = 1) := by
  refine ⟨rfl, ?_, ?_, ?_, ?_, ?_, ?_, ?_, ?_, ?_, ?_, ?_, ?_, ?_, ?_⟩
  · intro a hadmin hmint hfeed
    constructor
    · simp [encodeInitMarket, encodeFeedId, hfeed, specInitMarketBytes,
        encU8, encU16LE, encU32LE, encU64LE, encPubkey,
        encU128LE_eq_toLEBytes, toLEBytes_one, IX_TAG]
    · simp [specInitMarketBytes, toLEBytes_length, hexPairs_length,
        hadmin, hmint, hfeed]
  · intro feePayment
    exact ⟨rfl, by simp [specInitUserBytes, toLEBytes_length]⟩
  · intro mp mc feePayment hmp hmc
    exact ⟨rfl, by simp [specInitLPBytes, toLEBytes_length, hmp, hmc]⟩
  · intro userIdx amount
    exact ⟨rfl, by simp [specDepositCollateralBytes, toLEBytes_length]⟩
  · intro userIdx amount
    exact ⟨rfl, by simp [specWithdrawCollateralBytes, toLEBytes_length]⟩
  · intro c hc ap
    have hkl : encodeKeeperCrank c ap = specKeeperCrankBytes c ap := by
      cases ap <;>
        simp [encodeKeeperCrank, specKeeperCrankBytes, encU8, encU16LE,
          toLEBytes_one, toLEBytes_two, IX_TAG]
    have hck : encodeKeeperCrank c ap =
        5 :: c % 256 :: c / 256 % 256 :: [if ap then 1 else 0] := by
      cases ap <;>
        simp [encodeKeeperCrank, encU8, encU16LE, toLEBytes_one, toLEBytes_two,
          IX_TAG]
    refine ⟨hkl, by rw [hck]; rfl, by rw [hck]; rfl, ?_, by rw [hck]; rfl, rfl⟩
    rw [hck]
    simp only [List.drop_succ_cons, List.drop_zero, List.take_succ_cons,
      List.take_zero, leNat]
    omega
  · intro lpIdx userIdx size
    constructor
    · simp only [encodeTradeNoCpi, specTradeNoCpiBytes,
        encI128LE_eq_i128Bytes]
      rfl
    · simp only [specTradeNoCpiBytes, i128Bytes, List.length_cons,
        List.length_append, toLEBytes_length]
  · intro targetIdx
    exact ⟨rfl, by simp [specLiquidateAtOracleBytes, toLEBytes_length]⟩
  · intro userIdx
    exact ⟨rfl, by simp [specCloseAccountBytes, toLEBytes_length]⟩
  · intro amount
    exact ⟨rfl, by simp [specTopUpInsuranceBytes, toLEBytes_length]⟩
  · intro lp u hlp hu size hs1 hs2
    have hct : encodeTradeCpi lp u size =
        10 :: lp % 256 :: lp / 256 % 256 :: u % 256 :: u / 256 % 256 ::
          encI128LE size := by
      simp [encodeTradeCpi, encU8, encU16LE, toLEBytes_one, toLEBytes_two,
        IX_TAG]
    have htl : encodeTradeCpi lp u size = specTradeCpiBytes lp u size := by
      simp only [encodeTradeCpi, specTradeCpiBytes, encI128LE_eq_i128Bytes]
      rfl
    refine ⟨htl, ?_, by rw [hct]; rfl, ?_, ?_, by rw [hct]; rfl, ?_, rfl⟩
    · rw [hct]
      simp [encI128LE_length]
    · rw [hct]
      simp only [List.drop_succ_cons, List.drop_zero, List.take_succ_cons,
        List.take_zero, leNat]
      omega
    · rw [hct]
      simp only [List.drop_succ_cons, List.drop_zero, List.take_succ_cons,
        List.take_zero, leNat]
      omega
    · rw [hct]
      show decI128LE (encI128LE size) = size
      exact decI128LE_encI128LE size hs1 hs2
  · intro newThreshold
    constructor
    · simp only [encodeSetRiskThreshold, specSetRiskThresholdBytes,
        encU128LE_eq_toLEBytes]
      rfl
    · simp only [specSetRiskThresholdBytes, List.length_cons,
        toLEBytes_length]
  · intro newAdmin hna
    exact ⟨rfl, by simp [specUpdateAdminBytes, hna]⟩
  · exact ⟨rfl, rfl⟩

/-- Witness for C2: the permissionless KeeperCrank encoding is 4 bytes,
a TradeCpi size of −500 decodes back from its byte image, and a
concrete InitMarket payload is 256 bytes. -/
theorem c2_instruction_encoding_witness :
    (encodeKeeperCrank 65535 true).length = 4 ∧
    decI128LE ((encodeTradeCpi 1 2 (-500)).drop 5) = -500 ∧
    (specInitMarketBytes
        ⟨List.replicate 32 1, List.replicate 32 2, List.replicate 64 3,
          100, 50, 0, 0, 10, 500, 1000, 10, 64, 1000000, 0, 0, 100, 50,
          0, 0, 0⟩).length = 256 :=
  ⟨(c2_instruction_encoding.2.2.2.2.2.2.1 65535 (by decide) true).2.1,
   (c2_instruction_encoding.2.2.2.2.2.2.2.2.2.2.2.1 1 2 (by decide)
      (by decide) (-500) (by norm_num) (by norm_num)).2.2.2.2.2.2.1,
   (c2_instruction_encoding.2.1
      ⟨List.replicate 32 1, List.replicate 32 2, List.replicate 64 3,
        100, 50, 0, 0, 10, 500, 1000, 10, 64, 1000000, 0, 0, 100, 50,
        0, 0, 0⟩ (by simp) (by simp) (by simp)).2⟩

end Percolator
